import Mathlib

/-!
Shallow embedding of `IrxLoader` (irx_loader.cpp) from the tyra repository.

The loader brings up the PS2 I/O processor: it applies three SBV RPC patches
in the constructor, then `loadAll` injects a fixed sequence of IRX module
images via `SifExecModuleBuffer`, guarded by a process-wide `isLoaded` flag.
Each external primitive call is modelled as an `Event`; a run of a member
function is a pair `(trace, ok)` where `ok = false` means a `TYRA_ASSERT`
fired and the process halted at that point.
-/

namespace Tyra

/-- The IRX module images embedded in the binary (the EXTERN_IRX declarations
of irx_loader.cpp, lines 28-46). Identity is the symbolic name; the content is
opaque to the loader. -/
inductive Module
  | sio2man_irx
  | padman_irx
  | audsrv_irx
  | libsd_irx
  | fileXio_irx
  | iomanX_irx
  | bdm_irx
  | bdmfs_fatfs_irx
  | usbd_irx
  | usbd_mini_irx
  | usbmass_bd_irx
  | usbmass_bd_mini_irx
  | ps2hdd_irx
  | ps2fs_irx
  | ps2dev9_irx
  | ps2atad_irx
  deriving DecidableEq

/-- The three SBV capability toggles invoked by `applyRpcPatches`:
`sbv_patch_enable_lmb`, `sbv_patch_disable_prefix_check`, `sbv_patch_fileio`. -/
inductive Patch
  | enableLmb
  | disablePrefixCheck
  | fileio
  deriving DecidableEq

/-- Tags for the TYRA_LOG messages emitted by irx_loader.cpp. -/
inductive LogMsg
  | alreadyLoaded
  | loadingLibsd
  | libsdLoaded
  | loadingIomanX
  | iomanXLoaded
  | loadingFileXio
  | fileXioLoaded
  | loadingUsbModules
  | usbModulesLoaded
  | loadingHddModules
  | hddModulesLoaded
  | loadingAudsrv
  | audsrvLoaded
  | loadingSio2man
  | sio2manLoaded
  | loadingPadman
  | padmanLoaded
  deriving DecidableEq

/-- Observable side effects of the bring-up sequence, in program order. -/
inductive Event
  | load (m : Module)
  | log (m : LogMsg)
  | patch (p : Patch)
  | sifInitRpc
  | sifIopReset
  | sifIopSync
  | delay (count : Nat)
  | statProbe
  | nopdelay
  deriving DecidableEq

/-- Build-time configuration: the preprocessor switches USE_USBDMINI, ATAD and
RESET_IOP of irx_loader.cpp. Fixed before the orchestrator runs. -/
structure BuildConfig where
  useUsbdMini : Bool
  atad : Bool
  resetIop : Bool

/-- Results reported by the external primitives: `sifResult m` is the status
written by `SifExecModuleBuffer` for module `m`, `sbvResult p` the return value
of the SBV patch call `p`, and `statResult n` the return value of the n-th
`stat("mass:/", ...)` probe (0 means success). -/
structure Env where
  sifResult : Module → Int
  sbvResult : Patch → Int
  statResult : Nat → Int

/-- Sequential composition of two statement blocks: when the first block
halted (a TYRA_ASSERT fired), the rest of the function body never executes. -/
def andThen (a b : List Event × Bool) : List Event × Bool :=
  if a.2 then (a.1 ++ b.1, b.2) else a

/-- An `if (verbose) TYRA_LOG(...)` statement. -/
def logIf (verbose : Bool) (m : LogMsg) : List Event × Bool :=
  (if verbose then [Event.log m] else [], true)

/-- Modelled from the spec: `TYRA_ASSERT` comes from debug/debug.hpp, which is
not among the sources here; per the spec a failed assertion is fatal, the
process halts and no subsequent step proceeds. A `SifExecModuleBuffer` call
followed by `TYRA_ASSERT(ret >= 0, ...)` therefore issues the load and halts
exactly when the reported status is negative. -/
def SifExecModuleBuffer (env : Env) (m : Module) : List Event × Bool :=
  ([Event.load m], decide (0 ≤ env.sifResult m))

/-- Modelled from the spec: one SBV patch call followed by
`TYRA_ASSERT(ret >= 0, ...)`; a negative status is fatal. -/
def sbvPatchCall (env : Env) (p : Patch) : List Event × Bool :=
  ([Event.patch p], decide (0 ≤ env.sbvResult p))

/-- `IrxLoader::applyRpcPatches` (irx_loader.cpp lines 103-119). -/
def applyRpcPatches (env : Env) : List Event × Bool :=
  andThen (sbvPatchCall env .enableLmb)
    (andThen (sbvPatchCall env .disablePrefixCheck)
      (sbvPatchCall env .fileio))

/-- `IrxLoader::IrxLoader` (lines 53-69): under RESET_IOP it initializes RPC,
resets and resynchronizes the IOP (retrying until success) and re-initializes
RPC; then it always applies the SBV patches. -/
def IrxLoaderConstructor (cfg : BuildConfig) (env : Env) : List Event × Bool :=
  andThen
    (if cfg.resetIop then
      ([Event.sifInitRpc, Event.sifIopReset, Event.sifIopSync, Event.sifInitRpc],
        true)
    else ([], true))
    (applyRpcPatches env)

/-- `IrxLoader::loadLibsd` (lines 121-129). -/
def loadLibsd (env : Env) (verbose : Bool) : List Event × Bool :=
  andThen (logIf verbose .loadingLibsd)
    (andThen (SifExecModuleBuffer env .libsd_irx)
      (logIf verbose .libsdLoaded))

/-- `IrxLoader::loadIO` (lines 131-148): iomanX then fileXio. -/
def loadIo (env : Env) (verbose : Bool) : List Event × Bool :=
  andThen (logIf verbose .loadingIomanX)
    (andThen (SifExecModuleBuffer env .iomanX_irx)
      (andThen (logIf verbose .iomanXLoaded)
        (andThen (logIf verbose .loadingFileXio)
          (andThen (SifExecModuleBuffer env .fileXio_irx)
            (logIf verbose .fileXioLoaded)))))

/-- `IrxLoader::loadSio2man` (lines 210-218). -/
def loadSio2man (env : Env) (verbose : Bool) : List Event × Bool :=
  andThen (logIf verbose .loadingSio2man)
    (andThen (SifExecModuleBuffer env .sio2man_irx)
      (logIf verbose .sio2manLoaded))

/-- `IrxLoader::loadPadman` (lines 220-228). -/
def loadPadman (env : Env) (verbose : Bool) : List Event × Bool :=
  andThen (logIf verbose .loadingPadman)
    (andThen (SifExecModuleBuffer env .padman_irx)
      (logIf verbose .padmanLoaded))

/-- `IrxLoader::loadAudsrv` (lines 200-208). -/
def loadAudsrv (env : Env) (verbose : Bool) : List Event × Bool :=
  andThen (logIf verbose .loadingAudsrv)
    (andThen (SifExecModuleBuffer env .audsrv_irx)
      (logIf verbose .audsrvLoaded))

/-- The retry loop of `waitUntilUsbDeviceIsReady`:
`while (ret != 0 && retries > 0) { ret = stat("mass:/", &buffer); nopdelay();
retries--; }` with initial `ret = -1`. `idx` counts probes already issued,
`fuel` is the remaining retry budget. -/
def pollLoop (env : Env) (idx : Nat) : Nat → List Event
  | 0 => []
  | fuel + 1 =>
    Event.statProbe :: Event.nopdelay ::
      (if env.statResult idx = 0 then [] else pollLoop env (idx + 1) fuel)

/-- `IrxLoader::waitUntilUsbDeviceIsReady` (lines 239-253): a fixed spin delay,
then up to 50 stat probes stopping at the first success; it never reports an
error. -/
def waitUntilUsbDeviceIsReady (env : Env) : List Event × Bool :=
  (Event.delay 5 :: pollLoop env 0 50, true)

/-- `IrxLoader::loadUsbModules` (lines 150-177): driver and mass-storage
bridge (variant selected by USE_USBDMINI), then bdm, then bdmfs_fatfs, then
the readiness wait. -/
def loadUsbModules (cfg : BuildConfig) (env : Env) (verbose : Bool) :
    List Event × Bool :=
  andThen (logIf verbose .loadingUsbModules)
    (andThen
      (if cfg.useUsbdMini then
        andThen (SifExecModuleBuffer env .usbd_mini_irx)
          (SifExecModuleBuffer env .usbmass_bd_mini_irx)
      else
        andThen (SifExecModuleBuffer env .usbd_irx)
          (SifExecModuleBuffer env .usbmass_bd_irx))
      (andThen (SifExecModuleBuffer env .bdm_irx)
        (andThen (SifExecModuleBuffer env .bdmfs_fatfs_irx)
          (andThen (waitUntilUsbDeviceIsReady env)
            (logIf verbose .usbModulesLoaded)))))

/-- `IrxLoader::loadHddModules` (lines 179-198): ps2hdd, ps2fs, ps2dev9, and
ps2atad under the ATAD build option. -/
def loadHddModules (cfg : BuildConfig) (env : Env) (verbose : Bool) :
    List Event × Bool :=
  andThen (logIf verbose .loadingHddModules)
    (andThen (SifExecModuleBuffer env .ps2hdd_irx)
      (andThen (SifExecModuleBuffer env .ps2fs_irx)
        (andThen (SifExecModuleBuffer env .ps2dev9_irx)
          (andThen
            (if cfg.atad then SifExecModuleBuffer env .ps2atad_irx
            else ([], true))
            (logIf verbose .hddModulesLoaded)))))

/-- Result of a `loadAll` call: the trace of events, whether the call ran to
completion (`ok = false` means a TYRA_ASSERT halted the process), and the
value of the static `isLoaded` flag afterwards. -/
structure LoadAllResult where
  trace : List Event
  ok : Bool
  isLoaded : Bool
  deriving DecidableEq

/-- `IrxLoader::loadAll` (lines 73-96). `isLoaded` is the process-wide static
flag on entry. When the flag is set the call only logs and returns; otherwise
it loads the required modules, the optional batches and audsrv with verbosity
`!isLoggingToFile` (audsrv always verbose), and sets the flag on completion. -/
def loadAll (cfg : BuildConfig) (env : Env) (isLoaded : Bool)
    (withUsb withHdd isLoggingToFile : Bool) : LoadAllResult :=
  if isLoaded then
    { trace := [Event.log .alreadyLoaded], ok := true, isLoaded := isLoaded }
  else
    let v := !isLoggingToFile
    let r :=
      andThen (loadIo env v)
        (andThen (loadSio2man env v)
          (andThen (loadPadman env v)
            (andThen (loadLibsd env v)
              (andThen (if withUsb then loadUsbModules cfg env v else ([], true))
                (andThen (if withHdd then loadHddModules cfg env v else ([], true))
                  (loadAudsrv env true))))))
    { trace := r.1, ok := r.2, isLoaded := r.2 }

/-- A full bring-up run: construct an `IrxLoader` (which applies the patches)
and then call `loadAll` on it. -/
def bringUp (cfg : BuildConfig) (env : Env) (isLoaded : Bool)
    (withUsb withHdd isLoggingToFile : Bool) : LoadAllResult :=
  let c := IrxLoaderConstructor cfg env
  if c.2 then
    let r := loadAll cfg env isLoaded withUsb withHdd isLoggingToFile
    { trace := c.1 ++ r.trace, ok := r.ok, isLoaded := r.isLoaded }
  else
    { trace := c.1, ok := false, isLoaded := isLoaded }

/-- The module images loaded (in order) in a trace. -/
def loadsOf (tr : List Event) : List Module :=
  tr.filterMap fun e =>
    match e with
    | Event.load m => some m
    | _ => none

/-- The SBV patches applied (in order) in a trace. -/
def patchesOf (tr : List Event) : List Patch :=
  tr.filterMap fun e =>
    match e with
    | Event.patch p => some p
    | _ => none

/-- The log messages emitted (in order) in a trace. -/
def logsOf (tr : List Event) : List LogMsg :=
  tr.filterMap fun e =>
    match e with
    | Event.log m => some m
    | _ => none

/-- Reference semantics of loading a list of modules in order under the
assert-and-halt failure policy: loads proceed until the first negative status,
whose load is still issued; the boolean is false iff some load failed. -/
def runSeq (env : Env) : List Module → List Module × Bool
  | [] => ([], true)
  | m :: ms =>
    if 0 ≤ env.sifResult m then
      (m :: (runSeq env ms).1, (runSeq env ms).2)
    else ([m], false)

/-- The four required loader steps of `loadAll`, as module images:
loadIO (iomanX, fileXio), loadSio2man, loadPadman, loadLibsd. -/
def requiredSeq : List Module :=
  [.iomanX_irx, .fileXio_irx, .sio2man_irx, .padman_irx, .libsd_irx]

/-- The USB batch of `loadUsbModules` for a given build configuration. -/
def usbBatch (cfg : BuildConfig) : List Module :=
  (if cfg.useUsbdMini then [.usbd_mini_irx, .usbmass_bd_mini_irx]
  else [.usbd_irx, .usbmass_bd_irx]) ++ [.bdm_irx, .bdmfs_fatfs_irx]

/-- The HDD batch of `loadHddModules` for a given build configuration. -/
def hddBatch (cfg : BuildConfig) : List Module :=
  [.ps2hdd_irx, .ps2fs_irx, .ps2dev9_irx] ++
    (if cfg.atad then [.ps2atad_irx] else [])

/-- The full module sequence a first `loadAll` call attempts, in order. -/
def moduleSeq (cfg : BuildConfig) (withUsb withHdd : Bool) : List Module :=
  requiredSeq ++ (if withUsb then usbBatch cfg else []) ++
    (if withHdd then hddBatch cfg else []) ++ [.audsrv_irx]

/-- An environment in which every primitive reports success. -/
def envOk : Env :=
  { sifResult := fun _ => 0, sbvResult := fun _ => 0, statResult := fun _ => 0 }

/-- An environment in which every primitive reports failure. -/
def envBad : Env :=
  { sifResult := fun _ => -1, sbvResult := fun _ => -1,
    statResult := fun _ => -1 }

/-- The standard build configuration: full-size USB drivers, no ATAD, no IOP
reset. -/
def cfgStd : BuildConfig :=
  { useUsbdMini := false, atad := false, resetIop := false }

@[simp] lemma loadsOf_nil : loadsOf [] = [] := rfl

@[simp] lemma loadsOf_cons_load (m : Module) (tr : List Event) :
    loadsOf (Event.load m :: tr) = m :: loadsOf tr := rfl

@[simp] lemma loadsOf_cons_log (m : LogMsg) (tr : List Event) :
    loadsOf (Event.log m :: tr) = loadsOf tr := rfl

@[simp] lemma loadsOf_cons_patch (p : Patch) (tr : List Event) :
    loadsOf (Event.patch p :: tr) = loadsOf tr := rfl

@[simp] lemma loadsOf_cons_sifInitRpc (tr : List Event) :
    loadsOf (Event.sifInitRpc :: tr) = loadsOf tr := rfl

@[simp] lemma loadsOf_cons_sifIopReset (tr : List Event) :
    loadsOf (Event.sifIopReset :: tr) = loadsOf tr := rfl

@[simp] lemma loadsOf_cons_sifIopSync (tr : List Event) :
    loadsOf (Event.sifIopSync :: tr) = loadsOf tr := rfl

@[simp] lemma loadsOf_cons_delay (n : Nat) (tr : List Event) :
    loadsOf (Event.delay n :: tr) = loadsOf tr := rfl

@[simp] lemma loadsOf_cons_statProbe (tr : List Event) :
    loadsOf (Event.statProbe :: tr) = loadsOf tr := rfl

@[simp] lemma loadsOf_cons_nopdelay (tr : List Event) :
    loadsOf (Event.nopdelay :: tr) = loadsOf tr := rfl

@[simp] lemma loadsOf_append (t1 t2 : List Event) :
    loadsOf (t1 ++ t2) = loadsOf t1 ++ loadsOf t2 := by
  simp [loadsOf, List.filterMap_append]

@[simp] lemma patchesOf_nil : patchesOf [] = [] := rfl

@[simp] lemma patchesOf_cons_load (m : Module) (tr : List Event) :
    patchesOf (Event.load m :: tr) = patchesOf tr := rfl

@[simp] lemma patchesOf_cons_log (m : LogMsg) (tr : List Event) :
    patchesOf (Event.log m :: tr) = patchesOf tr := rfl

@[simp] lemma patchesOf_cons_patch (p : Patch) (tr : List Event) :
    patchesOf (Event.patch p :: tr) = p :: patchesOf tr := rfl

@[simp] lemma patchesOf_cons_sifInitRpc (tr : List Event) :
    patchesOf (Event.sifInitRpc :: tr) = patchesOf tr := rfl

@[simp] lemma patchesOf_cons_sifIopReset (tr : List Event) :
    patchesOf (Event.sifIopReset :: tr) = patchesOf tr := rfl

@[simp] lemma patchesOf_cons_sifIopSync (tr : List Event) :
    patchesOf (Event.sifIopSync :: tr) = patchesOf tr := rfl

@[simp] lemma patchesOf_cons_delay (n : Nat) (tr : List Event) :
    patchesOf (Event.delay n :: tr) = patchesOf tr := rfl

@[simp] lemma patchesOf_cons_statProbe (tr : List Event) :
    patchesOf (Event.statProbe :: tr) = patchesOf tr := rfl

@[simp] lemma patchesOf_cons_nopdelay (tr : List Event) :
    patchesOf (Event.nopdelay :: tr) = patchesOf tr := rfl

@[simp] lemma patchesOf_append (t1 t2 : List Event) :
    patchesOf (t1 ++ t2) = patchesOf t1 ++ patchesOf t2 := by
  simp [patchesOf, List.filterMap_append]

/-- Abstraction of a statement-block run to (modules loaded, completed). -/
def modAbs (r : List Event × Bool) : List Module × Bool := (loadsOf r.1, r.2)

/-- Composition law shared by `modAbs` of `andThen` and `runSeq` of append. -/
def seqComp (a b : List Module × Bool) : List Module × Bool :=
  if a.2 then (a.1 ++ b.1, b.2) else a

@[simp] lemma seqComp_nil_left (x : List Module × Bool) :
    seqComp ([], true) x = x := by
  simp [seqComp]

@[simp] lemma seqComp_nil_right (x : List Module × Bool) :
    seqComp x ([], true) = x := by
  cases x with
  | mk l b => cases b <;> simp [seqComp]

lemma modAbs_andThen (a b : List Event × Bool) :
    modAbs (andThen a b) = seqComp (modAbs a) (modAbs b) := by
  unfold andThen modAbs seqComp
  split <;> simp_all

@[simp] lemma modAbs_logIf (v : Bool) (m : LogMsg) :
    modAbs (logIf v m) = ([], true) := by
  cases v <;> simp [logIf, modAbs]

@[simp] lemma modAbs_exec (env : Env) (m : Module) :
    modAbs (SifExecModuleBuffer env m) = runSeq env [m] := by
  unfold SifExecModuleBuffer modAbs runSeq
  by_cases h : 0 ≤ env.sifResult m <;> simp [h, runSeq]

lemma loadsOf_pollLoop (env : Env) (fuel : Nat) :
    ∀ idx, loadsOf (pollLoop env idx fuel) = [] := by
  induction fuel with
  | zero => intro idx; simp [pollLoop]
  | succ n ih =>
    intro idx
    simp only [pollLoop, loadsOf_cons_statProbe, loadsOf_cons_nopdelay]
    split
    · simp
    · exact ih (idx + 1)

@[simp] lemma modAbs_wait (env : Env) :
    modAbs (waitUntilUsbDeviceIsReady env) = ([], true) := by
  simp [waitUntilUsbDeviceIsReady, modAbs, loadsOf_pollLoop]

lemma runSeq_append (env : Env) (l1 l2 : List Module) :
    runSeq env (l1 ++ l2) = seqComp (runSeq env l1) (runSeq env l2) := by
  induction l1 with
  | nil => simp [runSeq]
  | cons m ms ih =>
    by_cases h : 0 ≤ env.sifResult m
    · simp only [List.cons_append, runSeq, h, if_pos, ih, seqComp]
      split <;> simp_all [seqComp]
    · simp [runSeq, h, seqComp]

lemma modAbs_loadIo (env : Env) (v : Bool) :
    modAbs (loadIo env v) = runSeq env [.iomanX_irx, .fileXio_irx] := by
  by_cases h1 : 0 ≤ env.sifResult .iomanX_irx <;>
    by_cases h2 : 0 ≤ env.sifResult .fileXio_irx <;>
      simp [loadIo, modAbs_andThen, runSeq, h1, h2, seqComp]

lemma modAbs_loadSio2man (env : Env) (v : Bool) :
    modAbs (loadSio2man env v) = runSeq env [.sio2man_irx] := by
  simp [loadSio2man, modAbs_andThen]

lemma modAbs_loadPadman (env : Env) (v : Bool) :
    modAbs (loadPadman env v) = runSeq env [.padman_irx] := by
  simp [loadPadman, modAbs_andThen]

lemma modAbs_loadLibsd (env : Env) (v : Bool) :
    modAbs (loadLibsd env v) = runSeq env [.libsd_irx] := by
  simp [loadLibsd, modAbs_andThen]

lemma modAbs_loadAudsrv (env : Env) (v : Bool) :
    modAbs (loadAudsrv env v) = runSeq env [.audsrv_irx] := by
  simp [loadAudsrv, modAbs_andThen]

@[simp] lemma runSeq_nil (env : Env) : runSeq env [] = ([], true) := rfl

@[simp] lemma modAbs_skip :
    modAbs (([], true) : List Event × Bool) = ([], true) := rfl

@[simp] lemma seqComp_runSeq (env : Env) (l1 l2 : List Module) :
    seqComp (runSeq env l1) (runSeq env l2) = runSeq env (l1 ++ l2) :=
  (runSeq_append env l1 l2).symm

lemma modAbs_loadUsbModules (cfg : BuildConfig) (env : Env) (v : Bool) :
    modAbs (loadUsbModules cfg env v) = runSeq env (usbBatch cfg) := by
  cases hm : cfg.useUsbdMini <;>
    simp [loadUsbModules, usbBatch, hm, modAbs_andThen]

lemma modAbs_loadHddModules (cfg : BuildConfig) (env : Env) (v : Bool) :
    modAbs (loadHddModules cfg env v) = runSeq env (hddBatch cfg) := by
  cases ha : cfg.atad <;>
    simp [loadHddModules, hddBatch, ha, modAbs_andThen]

/-- Bridge: a first `loadAll` call loads exactly what `runSeq` computes on the
full module sequence, and completes iff `runSeq` reports success. -/
lemma loadAll_runSeq (cfg : BuildConfig) (env : Env) (u h l : Bool) :
    (loadsOf (loadAll cfg env false u h l).trace,
      (loadAll cfg env false u h l).ok) = runSeq env (moduleSeq cfg u h) := by
  have hpair : ∀ r : List Event × Bool, (loadsOf r.1, r.2) = modAbs r :=
    fun r => rfl
  cases u <;> cases h <;>
    simp [loadAll, hpair, modAbs_andThen, modAbs_loadIo, modAbs_loadSio2man,
      modAbs_loadPadman, modAbs_loadLibsd, modAbs_loadAudsrv,
      modAbs_loadUsbModules, modAbs_loadHddModules, moduleSeq, requiredSeq]

lemma runSeq_allOk (env : Env) (hok : ∀ m, 0 ≤ env.sifResult m) :
    ∀ l : List Module, runSeq env l = (l, true) := by
  intro l
  induction l with
  | nil => rfl
  | cons m ms ih => simp [runSeq, hok m, ih]

/-- The modules actually loaded form an initial segment of the requested
sequence. -/
lemma runSeq_initial (env : Env) (l : List Module) : (runSeq env l).1 <+: l := by
  induction l with
  | nil => simp
  | cons m ms ih =>
    by_cases hc : 0 ≤ env.sifResult m
    · simp [runSeq, hc, List.cons_prefix_cons, ih]
    · simp [runSeq, hc, List.cons_prefix_cons]

/-- `runSeq` on a sequence whose first negative status sits at index `i`:
the loads issued are exactly the first `i + 1` modules and the run fails. -/
lemma runSeq_firstFail (env : Env) :
    ∀ (l : List Module) (i : Nat) (hi : i < l.length),
      env.sifResult (l.get ⟨i, hi⟩) < 0 →
      (∀ j (hj : j < l.length), j < i → 0 ≤ env.sifResult (l.get ⟨j, hj⟩)) →
      runSeq env l = (l.take (i + 1), false) := by
  intro l
  induction l with
  | nil => intro i hi; exact absurd hi (Nat.not_lt_zero i)
  | cons m ms ih =>
    intro i hi hneg hpos
    cases i with
    | zero =>
      have hm : env.sifResult m < 0 := hneg
      simp [runSeq, not_le.mpr hm]
    | succ i =>
      have h0 : 0 ≤ env.sifResult m := by
        have := hpos 0 (Nat.succ_pos ms.length) (Nat.succ_pos i)
        simpa using this
      have hneg' : env.sifResult (ms.get ⟨i, Nat.lt_of_succ_lt_succ hi⟩) < 0 := by
        simpa using hneg
      have hpos' : ∀ j (hj : j < ms.length), j < i →
          0 ≤ env.sifResult (ms.get ⟨j, hj⟩) := by
        intro j hj hji
        have := hpos (j + 1) (Nat.succ_lt_succ hj) (Nat.succ_lt_succ hji)
        simpa using this
      simp [runSeq, h0, ih i (Nat.lt_of_succ_lt_succ hi) hneg' hpos']

lemma loadAll_isLoaded_eq_ok (cfg : BuildConfig) (env : Env) (u h l : Bool) :
    (loadAll cfg env false u h l).isLoaded = (loadAll cfg env false u h l).ok := by
  simp [loadAll]

lemma load_mem_iff (tr : List Event) (m : Module) :
    Event.load m ∈ tr ↔ m ∈ loadsOf tr := by
  induction tr with
  | nil => simp
  | cons e es ih => cases e <;> simp [ih]

/-- C1: Idempotency of the top-level entry: if a first call to `loadAll`
completes (which sets the process-wide `isLoaded` flag), then every later call,
with any combination of arguments, performs no module-load side effect: its
whole trace is the single "already loaded" log line, it loads nothing, and it
returns immediately with the flag still set. -/
theorem loadAll_idempotent (cfg cfg2 : BuildConfig) (env env2 : Env)
    (u h l u2 h2 l2 : Bool)
    (hfirst : (loadAll cfg env false u h l).ok = true) :
    (loadAll cfg env false u h l).isLoaded = true ∧
    (loadAll cfg2 env2 true u2 h2 l2).trace = [Event.log .alreadyLoaded] ∧
    loadsOf (loadAll cfg2 env2 true u2 h2 l2).trace = [] ∧
    (loadAll cfg2 env2 true u2 h2 l2).ok = true ∧
    (loadAll cfg2 env2 true u2 h2 l2).isLoaded = true := by
  refine ⟨?_, rfl, rfl, rfl, rfl⟩
  rw [loadAll_isLoaded_eq_ok, hfirst]

/-- Witness for C1 at concrete inputs: a fully successful first call with both
optional batches, then a second call with different arguments. -/
theorem loadAll_idempotent_witness :
    (loadAll cfgStd envOk false true true false).isLoaded = true ∧
    (loadAll cfgStd envOk true false false true).trace =
      [Event.log .alreadyLoaded] ∧
    loadsOf (loadAll cfgStd envOk true false false true).trace = [] ∧
    (loadAll cfgStd envOk true false false true).ok = true ∧
    (loadAll cfgStd envOk true false false true).isLoaded = true :=
  loadAll_idempotent cfgStd cfgStd envOk envOk true true false false false true
    (by decide)

/-- C2: Fatal propagation of module-load failure: when the first module of the
fixed sequence to report a negative status sits at position `i`, the
orchestrator halts there: the loads issued are exactly the first `i + 1`
modules of the sequence, so the load of every module positioned after it is
never issued, no later module becomes loaded, the run does not complete, and
the loaded flag is not set. -/
theorem loadAll_fatal_on_failure (cfg : BuildConfig) (env : Env) (u h l : Bool)
    (i : Nat) (hi : i < (moduleSeq cfg u h).length)
    (hneg : env.sifResult ((moduleSeq cfg u h).get ⟨i, hi⟩) < 0)
    (hpos : ∀ j (hj : j < (moduleSeq cfg u h).length), j < i →
      0 ≤ env.sifResult ((moduleSeq cfg u h).get ⟨j, hj⟩)) :
    loadsOf (loadAll cfg env false u h l).trace =
      (moduleSeq cfg u h).take (i + 1) ∧
    (loadAll cfg env false u h l).ok = false ∧
    (loadAll cfg env false u h l).isLoaded = false := by
  have hb := loadAll_runSeq cfg env u h l
  rw [runSeq_firstFail env (moduleSeq cfg u h) i hi hneg hpos] at hb
  have h1 := congrArg Prod.fst hb
  have h2 := congrArg Prod.snd hb
  simp only at h1 h2
  exact ⟨h1, h2, by rw [loadAll_isLoaded_eq_ok, h2]⟩

/-- Witness for C2: every load fails, so the run halts at the very first
module image (iomanX) and loads nothing further. -/
theorem loadAll_fatal_on_failure_witness :
    loadsOf (loadAll cfgStd envBad false false false false).trace =
      (moduleSeq cfgStd false false).take 1 ∧
    (loadAll cfgStd envBad false false false false).ok = false ∧
    (loadAll cfgStd envBad false false false false).isLoaded = false :=
  loadAll_fatal_on_failure cfgStd envBad false false false 0 (by decide)
    (by decide) (fun j hj hj0 => absurd hj0 (Nat.not_lt_zero j))

/-- C5: Fixed overall sequence: on a first, fully successful call the module
images are loaded exactly in the order: the required steps (iomanX and fileXio
for low-level I/O, then sio2man, then padman, then libsd), then the USB batch
when `withUsb`, then the HDD batch when `withHdd`, then audsrv, and finally
the loaded flag is set. -/
theorem loadAll_fixed_sequence (cfg : BuildConfig) (env : Env) (u h l : Bool)
    (hok : ∀ m, 0 ≤ env.sifResult m) :
    loadsOf (loadAll cfg env false u h l).trace =
      requiredSeq ++ (if u then usbBatch cfg else []) ++
        (if h then hddBatch cfg else []) ++ [.audsrv_irx] ∧
    (loadAll cfg env false u h l).ok = true ∧
    (loadAll cfg env false u h l).isLoaded = true := by
  have hb := loadAll_runSeq cfg env u h l
  rw [runSeq_allOk env hok (moduleSeq cfg u h)] at hb
  have h1 := congrArg Prod.fst hb
  have h2 := congrArg Prod.snd hb
  simp only at h1 h2
  exact ⟨by simpa [moduleSeq] using h1, h2,
    by rw [loadAll_isLoaded_eq_ok, h2]⟩

/-- Witness for C5: a fully successful run with both optional batches under
the standard build configuration. -/
theorem loadAll_fixed_sequence_witness :
    loadsOf (loadAll cfgStd envOk false true true false).trace =
      requiredSeq ++ (if true then usbBatch cfgStd else []) ++
        (if true then hddBatch cfgStd else []) ++ [.audsrv_irx] ∧
    (loadAll cfgStd envOk false true true false).ok = true ∧
    (loadAll cfgStd envOk false true true false).isLoaded = true :=
  loadAll_fixed_sequence cfgStd envOk true true false (fun _ => le_refl 0)

/-- C4: Conditional batches: a first call with `withUsb = false` and
`withHdd = false` that succeeds loads exactly the six module images of the
four required loader steps (iomanX and fileXio for I/O, sio2man, padman,
libsd) plus the audio server audsrv; it never loads any USB-batch or
HDD-batch module and never probes the USB device. -/
theorem loadAll_no_optional_batches (cfg : BuildConfig) (env : Env) (l : Bool)
    (hok : ∀ m, 0 ≤ env.sifResult m) :
    loadsOf (loadAll cfg env false false false l).trace =
      [.iomanX_irx, .fileXio_irx, .sio2man_irx, .padman_irx, .libsd_irx,
        .audsrv_irx] ∧
    (∀ m ∈ usbBatch cfg,
      Event.load m ∉ (loadAll cfg env false false false l).trace) ∧
    (∀ m ∈ hddBatch cfg,
      Event.load m ∉ (loadAll cfg env false false false l).trace) ∧
    Event.statProbe ∉ (loadAll cfg env false false false l).trace ∧
    (loadAll cfg env false false false l).ok = true := by
  have hb := loadAll_runSeq cfg env false false l
  rw [runSeq_allOk env hok (moduleSeq cfg false false)] at hb
  have h1 := congrArg Prod.fst hb
  have h2 := congrArg Prod.snd hb
  simp only at h1 h2
  have hseq : moduleSeq cfg false false =
      [.iomanX_irx, .fileXio_irx, .sio2man_irx, .padman_irx, .libsd_irx,
        .audsrv_irx] := by
    simp [moduleSeq, requiredSeq]
  rw [hseq] at h1
  refine ⟨h1, ?_, ?_, ?_, h2⟩
  · intro m hm
    rw [load_mem_iff, h1]
    rcases cfg with ⟨um, ha, ri⟩
    cases um <;> simp [usbBatch] at hm <;>
      rcases hm with h | h | h | h <;> subst h <;> decide
  · intro m hm
    rw [load_mem_iff, h1]
    rcases cfg with ⟨um, ha, ri⟩
    cases ha
    · simp [hddBatch] at hm
      rcases hm with h | h | h <;> subst h <;> decide
    · simp [hddBatch] at hm
      rcases hm with h | h | h | h <;> subst h <;> decide
  · cases l <;>
      simp [loadAll, loadIo, loadSio2man, loadPadman, loadLibsd, loadAudsrv,
        andThen, logIf, SifExecModuleBuffer, hok]

/-- Witness for C4 at a concrete successful environment. -/
theorem loadAll_no_optional_batches_witness :
    loadsOf (loadAll cfgStd envOk false false false true).trace =
      [.iomanX_irx, .fileXio_irx, .sio2man_irx, .padman_irx, .libsd_irx,
        .audsrv_irx] ∧
    (∀ m ∈ usbBatch cfgStd,
      Event.load m ∉ (loadAll cfgStd envOk false false false true).trace) ∧
    (∀ m ∈ hddBatch cfgStd,
      Event.load m ∉ (loadAll cfgStd envOk false false false true).trace) ∧
    Event.statProbe ∉ (loadAll cfgStd envOk false false false true).trace ∧
    (loadAll cfgStd envOk false false false true).ok = true :=
  loadAll_no_optional_batches cfgStd envOk true (fun _ => le_refl 0)

/-- Number of stat probes issued in a trace. -/
def probeCount (tr : List Event) : Nat :=
  tr.countP fun e => decide (e = Event.statProbe)

lemma probeCount_pollLoop_allFail (env : Env)
    (hf : ∀ n, env.statResult n ≠ 0) :
    ∀ (fuel idx : Nat), probeCount (pollLoop env idx fuel) = fuel := by
  intro fuel
  induction fuel with
  | zero => intro idx; rfl
  | succ f ih =>
    intro idx
    have := ih (idx + 1)
    simp only [pollLoop, probeCount, List.countP_cons] at this ⊢
    simp [hf idx] at this ⊢
    omega

lemma probeCount_pollLoop_le (env : Env) :
    ∀ (fuel idx : Nat), probeCount (pollLoop env idx fuel) ≤ fuel := by
  intro fuel
  induction fuel with
  | zero => intro idx; exact le_refl 0
  | succ f ih =>
    intro idx
    by_cases h0 : env.statResult idx = 0
    · simp [pollLoop, probeCount, List.countP_cons, h0]
    · have := ih (idx + 1)
      simp only [pollLoop, probeCount, List.countP_cons] at this ⊢
      simp [h0] at this ⊢
      omega

lemma probeCount_pollLoop_firstOk (env : Env) :
    ∀ (fuel n idx : Nat), n < fuel → env.statResult (idx + n) = 0 →
      (∀ m, m < n → env.statResult (idx + m) ≠ 0) →
      probeCount (pollLoop env idx fuel) = n + 1 := by
  intro fuel
  induction fuel with
  | zero => intro n idx hn; exact absurd hn (Nat.not_lt_zero n)
  | succ f ih =>
    intro n idx hn h0 hm
    cases n with
    | zero =>
      have h0' : env.statResult idx = 0 := by simpa using h0
      simp [pollLoop, h0', probeCount, List.countP_cons]
    | succ n =>
      have hidx : env.statResult idx ≠ 0 := by
        have := hm 0 (Nat.succ_pos n)
        simpa using this
      have h0' : env.statResult (idx + 1 + n) = 0 := by
        have : idx + 1 + n = idx + (n + 1) := by omega
        rw [this]; exact h0
      have hm' : ∀ m, m < n → env.statResult (idx + 1 + m) ≠ 0 := by
        intro m hmn
        have heq : idx + 1 + m = idx + (m + 1) := by omega
        rw [heq]
        exact hm (m + 1) (Nat.succ_lt_succ hmn)
      have := ih n (idx + 1) (Nat.lt_of_succ_lt_succ hn) h0' hm'
      simp only [pollLoop, probeCount, List.countP_cons] at this ⊢
      simp [hidx] at this ⊢
      omega

/-- C7: Readiness poll bound and early exit: the poller always issues at most
50 stat probes and returns normally; when every probe reports not-ready it
issues exactly the 50 probes of the retry budget and still returns without
raising any error; when the first successful probe is the n-th (n < 50), the
loop exits there and exactly n + 1 probes are issued. -/
theorem waitUntilUsbDeviceIsReady_bound (env : Env) :
    probeCount (waitUntilUsbDeviceIsReady env).1 ≤ 50 ∧
    (waitUntilUsbDeviceIsReady env).2 = true ∧
    ((∀ n, env.statResult n ≠ 0) →
      probeCount (waitUntilUsbDeviceIsReady env).1 = 50) ∧
    (∀ n, n < 50 → env.statResult n = 0 →
      (∀ m, m < n → env.statResult m ≠ 0) →
      probeCount (waitUntilUsbDeviceIsReady env).1 = n + 1) := by
  have hwrap : probeCount (waitUntilUsbDeviceIsReady env).1 =
      probeCount (pollLoop env 0 50) := by
    simp [waitUntilUsbDeviceIsReady, probeCount, List.countP_cons]
  refine ⟨?_, rfl, ?_, ?_⟩
  · rw [hwrap]; exact probeCount_pollLoop_le env 50 0
  · intro hf
    rw [hwrap]; exact probeCount_pollLoop_allFail env hf 50 0
  · intro n hn h0 hm
    rw [hwrap]
    exact probeCount_pollLoop_firstOk env 50 n 0 hn (by simpa using h0)
      (fun m hmn => by simpa using hm m hmn)

/-- Witness for C7: with every probe failing, exactly 50 probes are issued;
with the very first probe succeeding, exactly one probe is issued. -/
theorem waitUntilUsbDeviceIsReady_bound_witness :
    probeCount (waitUntilUsbDeviceIsReady envBad).1 = 50 ∧
    probeCount (waitUntilUsbDeviceIsReady envOk).1 = 0 + 1 :=
  ⟨(waitUntilUsbDeviceIsReady_bound envBad).2.2.1 (fun n => by simp [envBad]),
    (waitUntilUsbDeviceIsReady_bound envOk).2.2.2 0 (by decide) (by decide)
      (fun m hm => absurd hm (Nat.not_lt_zero m))⟩

lemma loadsOf_constructor (cfg : BuildConfig) (env : Env) :
    loadsOf (IrxLoaderConstructor cfg env).1 = [] := by
  rcases cfg with ⟨um, ha, ri⟩
  cases ri <;>
    simp only [IrxLoaderConstructor, applyRpcPatches, sbvPatchCall, andThen] <;>
      split_ifs <;> simp

/-- C8: Patch applier contract: `applyRpcPatches` issues exactly the three
capability toggles in the fixed order enable-LMB buffer loading,
disable-prefix-check, enable-fileio when all succeed; a toggle returning a
negative status is fatal: the run halts right after that toggle (the later
toggles are not issued), and the surrounding bring-up issues no module load. -/
theorem applyRpcPatches_contract (env : Env) :
    ((∀ p, 0 ≤ env.sbvResult p) →
      applyRpcPatches env =
        ([Event.patch .enableLmb, Event.patch .disablePrefixCheck,
          Event.patch .fileio], true)) ∧
    (env.sbvResult .enableLmb < 0 →
      applyRpcPatches env = ([Event.patch .enableLmb], false)) ∧
    (0 ≤ env.sbvResult .enableLmb → env.sbvResult .disablePrefixCheck < 0 →
      applyRpcPatches env =
        ([Event.patch .enableLmb, Event.patch .disablePrefixCheck], false)) ∧
    (0 ≤ env.sbvResult .enableLmb → 0 ≤ env.sbvResult .disablePrefixCheck →
      env.sbvResult .fileio < 0 →
      applyRpcPatches env =
        ([Event.patch .enableLmb, Event.patch .disablePrefixCheck,
          Event.patch .fileio], false)) ∧
    ∀ (cfg : BuildConfig) (b u h l : Bool), (applyRpcPatches env).2 = false →
      (bringUp cfg env b u h l).trace = (IrxLoaderConstructor cfg env).1 ∧
      (bringUp cfg env b u h l).ok = false ∧
      loadsOf (bringUp cfg env b u h l).trace = [] := by
  refine ⟨?_, ?_, ?_, ?_, ?_⟩
  · intro hp
    simp [applyRpcPatches, sbvPatchCall, andThen, hp .enableLmb,
      hp .disablePrefixCheck, hp .fileio]
  · intro hneg
    simp [applyRpcPatches, sbvPatchCall, andThen, not_le.mpr hneg]
  · intro h1 hneg
    simp [applyRpcPatches, sbvPatchCall, andThen, h1, not_le.mpr hneg]
  · intro h1 h2 hneg
    simp [applyRpcPatches, sbvPatchCall, andThen, h1, h2, not_le.mpr hneg]
  · intro cfg b u h l hfail
    have hc2 : (IrxLoaderConstructor cfg env).2 = false := by
      cases hri : cfg.resetIop <;>
        simp [IrxLoaderConstructor, andThen, hri, hfail]
    simp [bringUp, hc2, loadsOf_constructor]

/-- Witness for C8: with every toggle succeeding, exactly the three patches in
order; with the first toggle failing, the run halts after it. -/
theorem applyRpcPatches_contract_witness :
    applyRpcPatches envOk =
      ([Event.patch .enableLmb, Event.patch .disablePrefixCheck,
        Event.patch .fileio], true) ∧
    applyRpcPatches envBad = ([Event.patch .enableLmb], false) :=
  ⟨(applyRpcPatches_contract envOk).1 (fun _ => le_refl 0),
    (applyRpcPatches_contract envBad).2.1 (by decide)⟩

/-- Whether an event is a module-load call. -/
def Event.isLoad : Event → Bool
  | Event.load _ => true
  | _ => false

/-- Whether an event is an SBV patch call. -/
def Event.isPatch : Event → Bool
  | Event.patch _ => true
  | _ => false

lemma mem_andThen {e : Event} {a b : List Event × Bool}
    (h : e ∈ (andThen a b).1) : e ∈ a.1 ∨ e ∈ b.1 := by
  unfold andThen at h
  split at h
  · exact List.mem_append.mp h
  · exact Or.inl h

lemma forall_andThen {p : Event → Bool} {a b : List Event × Bool}
    (ha : ∀ e ∈ a.1, p e = true) (hb : ∀ e ∈ b.1, p e = true) :
    ∀ e ∈ (andThen a b).1, p e = true := by
  intro e he
  rcases mem_andThen he with hm | hm
  exacts [ha e hm, hb e hm]

lemma forall_logIf {p : Event → Bool} {v : Bool} (m : LogMsg)
    (hm : v = true → p (Event.log m) = true) :
    ∀ e ∈ (logIf v m).1, p e = true := by
  cases v
  · intro e he; simp [logIf] at he
  · intro e he
    simp [logIf] at he
    subst he
    exact hm rfl

lemma forall_exec {p : Event → Bool} (env : Env) (m : Module)
    (hm : p (Event.load m) = true) :
    ∀ e ∈ (SifExecModuleBuffer env m).1, p e = true := by
  intro e he
  simp [SifExecModuleBuffer] at he
  subst he
  exact hm

lemma forall_pollLoop {p : Event → Bool} (env : Env)
    (hs : p Event.statProbe = true) (hn : p Event.nopdelay = true) :
    ∀ (fuel idx : Nat), ∀ e ∈ pollLoop env idx fuel, p e = true := by
  intro fuel
  induction fuel with
  | zero => intro idx e he; simp [pollLoop] at he
  | succ f ih =>
    intro idx e he
    simp only [pollLoop] at he
    rcases List.mem_cons.mp he with rfl | he
    · exact hs
    rcases List.mem_cons.mp he with rfl | he
    · exact hn
    split at he
    · simp at he
    · exact ih (idx + 1) e he

lemma forall_wait {p : Event → Bool} (env : Env)
    (hd : ∀ n, p (Event.delay n) = true)
    (hs : p Event.statProbe = true) (hn : p Event.nopdelay = true) :
    ∀ e ∈ (waitUntilUsbDeviceIsReady env).1, p e = true := by
  intro e he
  rcases List.mem_cons.mp he with rfl | he
  · exact hd 5
  · exact forall_pollLoop env hs hn 50 0 e he

lemma forall_loadIo {p : Event → Bool} (env : Env) (v : Bool)
    (hload : ∀ m, p (Event.load m) = true)
    (hlog : ∀ m, v = true → p (Event.log m) = true) :
    ∀ e ∈ (loadIo env v).1, p e = true :=
  forall_andThen (forall_logIf _ (hlog _))
    (forall_andThen (forall_exec env _ (hload _))
      (forall_andThen (forall_logIf _ (hlog _))
        (forall_andThen (forall_logIf _ (hlog _))
          (forall_andThen (forall_exec env _ (hload _))
            (forall_logIf _ (hlog _))))))

lemma forall_loadSio2man {p : Event → Bool} (env : Env) (v : Bool)
    (hload : ∀ m, p (Event.load m) = true)
    (hlog : ∀ m, v = true → p (Event.log m) = true) :
    ∀ e ∈ (loadSio2man env v).1, p e = true :=
  forall_andThen (forall_logIf _ (hlog _))
    (forall_andThen (forall_exec env _ (hload _)) (forall_logIf _ (hlog _)))

lemma forall_loadPadman {p : Event → Bool} (env : Env) (v : Bool)
    (hload : ∀ m, p (Event.load m) = true)
    (hlog : ∀ m, v = true → p (Event.log m) = true) :
    ∀ e ∈ (loadPadman env v).1, p e = true :=
  forall_andThen (forall_logIf _ (hlog _))
    (forall_andThen (forall_exec env _ (hload _)) (forall_logIf _ (hlog _)))

lemma forall_loadLibsd {p : Event → Bool} (env : Env) (v : Bool)
    (hload : ∀ m, p (Event.load m) = true)
    (hlog : ∀ m, v = true → p (Event.log m) = true) :
    ∀ e ∈ (loadLibsd env v).1, p e = true :=
  forall_andThen (forall_logIf _ (hlog _))
    (forall_andThen (forall_exec env _ (hload _)) (forall_logIf _ (hlog _)))

lemma forall_loadAudsrv {p : Event → Bool} (env : Env) (v : Bool)
    (hload : p (Event.load .audsrv_irx) = true)
    (h1 : v = true → p (Event.log .loadingAudsrv) = true)
    (h2 : v = true → p (Event.log .audsrvLoaded) = true) :
    ∀ e ∈ (loadAudsrv env v).1, p e = true :=
  forall_andThen (forall_logIf _ h1)
    (forall_andThen (forall_exec env _ hload) (forall_logIf _ h2))

lemma forall_loadUsbModules {p : Event → Bool} (cfg : BuildConfig) (env : Env)
    (v : Bool)
    (hload : ∀ m, p (Event.load m) = true)
    (hlog : ∀ m, v = true → p (Event.log m) = true)
    (hd : ∀ n, p (Event.delay n) = true)
    (hs : p Event.statProbe = true) (hn : p Event.nopdelay = true) :
    ∀ e ∈ (loadUsbModules cfg env v).1, p e = true := by
  have hvar : ∀ e ∈ (if cfg.useUsbdMini then
      andThen (SifExecModuleBuffer env .usbd_mini_irx)
        (SifExecModuleBuffer env .usbmass_bd_mini_irx)
    else
      andThen (SifExecModuleBuffer env .usbd_irx)
        (SifExecModuleBuffer env .usbmass_bd_irx)).1, p e = true := by
    cases cfg.useUsbdMini <;>
      exact forall_andThen (forall_exec env _ (hload _))
        (forall_exec env _ (hload _))
  exact forall_andThen (forall_logIf _ (hlog _))
    (forall_andThen hvar
      (forall_andThen (forall_exec env _ (hload _))
        (forall_andThen (forall_exec env _ (hload _))
          (forall_andThen (forall_wait env hd hs hn)
            (forall_logIf _ (hlog _))))))

lemma forall_loadHddModules {p : Event → Bool} (cfg : BuildConfig) (env : Env)
    (v : Bool)
    (hload : ∀ m, p (Event.load m) = true)
    (hlog : ∀ m, v = true → p (Event.log m) = true) :
    ∀ e ∈ (loadHddModules cfg env v).1, p e = true := by
  have hatad : ∀ e ∈ (if cfg.atad then SifExecModuleBuffer env .ps2atad_irx
      else (([], true) : List Event × Bool)).1, p e = true := by
    cases cfg.atad
    · intro e he; simp at he
    · exact forall_exec env _ (hload _)
  exact forall_andThen (forall_logIf _ (hlog _))
    (forall_andThen (forall_exec env _ (hload _))
      (forall_andThen (forall_exec env _ (hload _))
        (forall_andThen (forall_exec env _ (hload _))
          (forall_andThen hatad (forall_logIf _ (hlog _))))))

lemma forall_loadAll {p : Event → Bool} (cfg : BuildConfig) (env : Env)
    (b u h l : Bool)
    (hload : ∀ m, p (Event.load m) = true)
    (hlog : ∀ m, (!l) = true → p (Event.log m) = true)
    (haud1 : p (Event.log .loadingAudsrv) = true)
    (haud2 : p (Event.log .audsrvLoaded) = true)
    (halready : b = true → p (Event.log .alreadyLoaded) = true)
    (hd : ∀ n, p (Event.delay n) = true)
    (hs : p Event.statProbe = true) (hn : p Event.nopdelay = true) :
    ∀ e ∈ (loadAll cfg env b u h l).trace, p e = true := by
  cases b
  · have husb : ∀ e ∈ (if u then loadUsbModules cfg env (!l)
        else (([], true) : List Event × Bool)).1, p e = true := by
      cases u
      · intro e he; simp at he
      · exact forall_loadUsbModules cfg env _ hload hlog hd hs hn
    have hhdd : ∀ e ∈ (if h then loadHddModules cfg env (!l)
        else (([], true) : List Event × Bool)).1, p e = true := by
      cases h
      · intro e he; simp at he
      · exact forall_loadHddModules cfg env _ hload hlog
    exact forall_andThen (forall_loadIo env _ hload hlog)
      (forall_andThen (forall_loadSio2man env _ hload hlog)
        (forall_andThen (forall_loadPadman env _ hload hlog)
          (forall_andThen (forall_loadLibsd env _ hload hlog)
            (forall_andThen husb
              (forall_andThen hhdd
                (forall_loadAudsrv env true (hload _)
                  (fun _ => haud1) (fun _ => haud2)))))))
  · intro e he
    simp [loadAll] at he
    subst he
    exact halready rfl

lemma patchesOf_eq_nil {tr : List Event} (h : ∀ e ∈ tr, e.isPatch = false) :
    patchesOf tr = [] := by
  apply List.filterMap_eq_nil_iff.mpr
  intro e he
  have := h e he
  cases e <;> simp_all [Event.isPatch]

lemma loadAll_no_patch (cfg : BuildConfig) (env : Env) (b u h l : Bool) :
    ∀ e ∈ (loadAll cfg env b u h l).trace, e.isPatch = false := by
  intro e he
  have := forall_loadAll (p := fun e => !(e.isPatch)) cfg env b u h l
    (fun _ => rfl) (fun _ _ => rfl) rfl rfl (fun _ => rfl) (fun _ => rfl)
    rfl rfl e he
  simpa using this

lemma constructor_no_load (cfg : BuildConfig) (env : Env) :
    ∀ e ∈ (IrxLoaderConstructor cfg env).1, e.isLoad = false := by
  rcases cfg with ⟨um, ha, ri⟩
  cases ri <;>
    simp only [IrxLoaderConstructor, applyRpcPatches, sbvPatchCall, andThen] <;>
      split_ifs <;> simp [Event.isLoad]

lemma constructor_ok_shape (cfg : BuildConfig) (env : Env) :
    (IrxLoaderConstructor cfg env).2 = (applyRpcPatches env).2 := by
  cases hri : cfg.resetIop <;> simp [IrxLoaderConstructor, andThen, hri]

lemma applyRpcPatches_ok_trace (env : Env)
    (hok : (applyRpcPatches env).2 = true) :
    (applyRpcPatches env).1 =
      [Event.patch .enableLmb, Event.patch .disablePrefixCheck,
        Event.patch .fileio] := by
  by_cases h1 : 0 ≤ env.sbvResult .enableLmb <;>
    by_cases h2 : 0 ≤ env.sbvResult .disablePrefixCheck <;>
      simp_all [applyRpcPatches, sbvPatchCall, andThen]

lemma patchesOf_constructor_ok (cfg : BuildConfig) (env : Env)
    (hok : (IrxLoaderConstructor cfg env).2 = true) :
    patchesOf (IrxLoaderConstructor cfg env).1 =
      [.enableLmb, .disablePrefixCheck, .fileio] := by
  have happ : (applyRpcPatches env).2 = true := by
    rw [← constructor_ok_shape cfg env]; exact hok
  cases hri : cfg.resetIop <;>
    simp [IrxLoaderConstructor, andThen, hri, applyRpcPatches_ok_trace env happ]

lemma append_order {A B : List Event} (hA : ∀ e ∈ A, Event.isLoad e = false)
    (hB : ∀ e ∈ B, Event.isPatch e = false) (i j : Nat)
    (hi : i < (A ++ B).length) (hj : j < (A ++ B).length)
    (hip : ((A ++ B).getD i Event.nopdelay).isPatch = true)
    (hjl : ((A ++ B).getD j Event.nopdelay).isLoad = true) : i < j := by
  have hiA : i < A.length := by
    by_contra hge
    push_neg at hge
    have hmem : (A ++ B).getD i Event.nopdelay ∈ B := by
      rw [List.getD_eq_getElem _ _ hi, List.getElem_append_right hge]
      exact List.getElem_mem _
    have hfalse := hB _ hmem
    rw [hfalse] at hip
    exact Bool.noConfusion hip
  have hjB : A.length ≤ j := by
    by_contra hlt
    push_neg at hlt
    have hmem : (A ++ B).getD j Event.nopdelay ∈ A := by
      rw [List.getD_eq_getElem _ _ hj, List.getElem_append_left hlt]
      exact List.getElem_mem _
    have hfalse := hA _ hmem
    rw [hfalse] at hjl
    exact Bool.noConfusion hjl
  omega

/-- C3: Ordering of patching versus loading: in every successful bring-up run
(constructing the IrxLoader, which applies the patches, then calling loadAll)
the patch-application step completes entirely before the first module-load
call: the patch events of the trace are exactly the three RPC capability
toggles in their fixed order, and every patch event strictly precedes every
module-load event in the trace. -/
theorem patches_complete_before_loads (cfg : BuildConfig) (env : Env)
    (b u h l : Bool) (hok : (bringUp cfg env b u h l).ok = true) :
    patchesOf (bringUp cfg env b u h l).trace =
      [.enableLmb, .disablePrefixCheck, .fileio] ∧
    ∀ i j : Nat, i < (bringUp cfg env b u h l).trace.length →
      j < (bringUp cfg env b u h l).trace.length →
      ((bringUp cfg env b u h l).trace.getD i Event.nopdelay).isPatch = true →
      ((bringUp cfg env b u h l).trace.getD j Event.nopdelay).isLoad = true →
      i < j := by
  have hc2 : (IrxLoaderConstructor cfg env).2 = true := by
    by_contra hfalse
    rw [Bool.not_eq_true] at hfalse
    simp [bringUp, hfalse] at hok
  have htr : (bringUp cfg env b u h l).trace =
      (IrxLoaderConstructor cfg env).1 ++ (loadAll cfg env b u h l).trace := by
    simp [bringUp, hc2]
  constructor
  · rw [htr, patchesOf_append, patchesOf_constructor_ok cfg env hc2,
      patchesOf_eq_nil (loadAll_no_patch cfg env b u h l), List.append_nil]
  · intro i j hi hj hip hjl
    rw [htr] at hi hj hip hjl
    exact append_order (constructor_no_load cfg env)
      (loadAll_no_patch cfg env b u h l) i j hi hj hip hjl

/-- Witness for C3: a concrete successful bring-up with both optional batches
has exactly the three patch toggles, in order, in its trace. -/
theorem patches_complete_before_loads_witness :
    patchesOf (bringUp cfgStd envOk false true true false).trace =
      [.enableLmb, .disablePrefixCheck, .fileio] :=
  (patches_complete_before_loads cfgStd envOk false true true false
    (by decide)).1

/-- The sequence of module images a first `loadAll` call actually loads. -/
def loadSeqOf (cfg : BuildConfig) (env : Env) (u h l : Bool) : List Module :=
  loadsOf (loadAll cfg env false u h l).trace

/-- In the load sequence `p`, `b` is loaded only after `a`: whenever `b` is
loaded, `a` is loaded too, and every load of `a` precedes every load of `b`. -/
def loadedAfter (p : List Module) (a b : Module) : Prop :=
  (b ∈ p → a ∈ p) ∧
    ∀ i j : Fin p.length, p.get i = a → p.get j = b → (i : Nat) < (j : Nat)

/-- In the full sequence `l`: every occurrence of `a` precedes every
occurrence of `b`, and every occurrence of `b` has an occurrence of `a`
strictly before it. -/
@[reducible]
def okPair (l : List Module) (a b : Module) : Prop :=
  (∀ i j : Fin l.length, l.get i = a → l.get j = b →
    (i : Nat) < (j : Nat)) ∧
    ∀ j : Fin l.length, l.get j = b →
      ∃ i : Fin l.length, (i : Nat) < (j : Nat) ∧ l.get i = a

lemma loadedAfter_of_okPair {p l : List Module} (hp : p <+: l)
    {a b : Module} (hok : okPair l a b) : loadedAfter p a b := by
  have hle : p.length ≤ l.length := hp.length_le
  constructor
  · intro hb
    obtain ⟨j, hj⟩ := List.mem_iff_get.mp hb
    have hjl : l.get ⟨(j : Nat), lt_of_lt_of_le j.isLt hle⟩ = b := by
      rw [List.get_eq_getElem, ← hp.getElem j.isLt, ← List.get_eq_getElem]
      exact hj
    obtain ⟨i, hij, hia⟩ := hok.2 _ hjl
    have hiP : (i : Nat) < p.length := Nat.lt_trans hij j.isLt
    have hpa : p.get ⟨(i : Nat), hiP⟩ = a := by
      rw [List.get_eq_getElem, hp.getElem hiP, ← List.get_eq_getElem]
      exact hia
    exact List.mem_iff_get.mpr ⟨⟨(i : Nat), hiP⟩, hpa⟩
  · intro i j hia hjb
    have hial : l.get ⟨(i : Nat), lt_of_lt_of_le i.isLt hle⟩ = a := by
      rw [List.get_eq_getElem, ← hp.getElem i.isLt, ← List.get_eq_getElem]
      exact hia
    have hjbl : l.get ⟨(j : Nat), lt_of_lt_of_le j.isLt hle⟩ = b := by
      rw [List.get_eq_getElem, ← hp.getElem j.isLt, ← List.get_eq_getElem]
      exact hjb
    exact hok.1 _ _ hial hjbl

/-- C6: Batch dependency ordering: in every first `loadAll` run, the
block-device manager bdm is loaded only after the USB driver and the USB
mass-storage bridge of the active build variant, the FAT filesystem module
bdmfs_fatfs is loaded last of the USB batch (after driver, bridge and bdm),
and the HDD filesystem module ps2fs is loaded only after the HDD driver
ps2hdd. -/
theorem batch_dependency_order (cfg : BuildConfig) (env : Env) (u h l : Bool) :
    loadedAfter (loadSeqOf cfg env u h l)
      (if cfg.useUsbdMini then .usbd_mini_irx else .usbd_irx) .bdm_irx ∧
    loadedAfter (loadSeqOf cfg env u h l)
      (if cfg.useUsbdMini then .usbmass_bd_mini_irx else .usbmass_bd_irx)
      .bdm_irx ∧
    loadedAfter (loadSeqOf cfg env u h l)
      (if cfg.useUsbdMini then .usbd_mini_irx else .usbd_irx)
      .bdmfs_fatfs_irx ∧
    loadedAfter (loadSeqOf cfg env u h l)
      (if cfg.useUsbdMini then .usbmass_bd_mini_irx else .usbmass_bd_irx)
      .bdmfs_fatfs_irx ∧
    loadedAfter (loadSeqOf cfg env u h l) .bdm_irx .bdmfs_fatfs_irx ∧
    loadedAfter (loadSeqOf cfg env u h l) .ps2hdd_irx .ps2fs_irx := by
  have hb := loadAll_runSeq cfg env u h l
  have h1 : loadsOf (loadAll cfg env false u h l).trace =
      (runSeq env (moduleSeq cfg u h)).1 := congrArg Prod.fst hb
  have hpre : loadSeqOf cfg env u h l <+: moduleSeq cfg u h := by
    unfold loadSeqOf
    rw [h1]
    exact runSeq_initial env _
  clear hb h1
  rcases cfg with ⟨um, ha, ri⟩
  cases ri <;> cases um <;> cases ha <;> cases u <;> cases h <;>
    exact ⟨loadedAfter_of_okPair hpre (by decide),
      loadedAfter_of_okPair hpre (by decide),
      loadedAfter_of_okPair hpre (by decide),
      loadedAfter_of_okPair hpre (by decide),
      loadedAfter_of_okPair hpre (by decide),
      loadedAfter_of_okPair hpre (by decide)⟩

/-- C9 counterexample: the audio-server step's log output cannot be suppressed
by the logging argument of `loadAll`. With `isLoggingToFile = true` (the
suppressing value: the only log lines of the whole run are the audsrv ones)
the audsrv step still logs, exactly as it does with `isLoggingToFile = false`.
This refutes the claim that the logging argument can suppress the log output
of every step of the bring-up sequence. -/
theorem audsrv_log_not_suppressible :
    Event.log .loadingAudsrv ∈
      (loadAll cfgStd envOk false false false true).trace ∧
    logsOf (loadAll cfgStd envOk false false false true).trace =
      [.loadingAudsrv, .audsrvLoaded] ∧
    Event.log .loadingAudsrv ∈
      (loadAll cfgStd envOk false false false false).trace := by
  decide

/-- C9 amended: logging is a behavior-neutral side channel, and the logging
argument suppresses the log output of every step except the audio-server
step: two runs differing only in the logging argument load the same modules
in the same order with the same completion result and the same final flag,
and with `isLoggingToFile = true` the only log lines ever emitted on a first
call are the audio-server step's. -/
theorem logging_behavior_neutral (cfg : BuildConfig) (env : Env)
    (b u h l l' : Bool) :
    loadsOf (loadAll cfg env b u h l).trace =
      loadsOf (loadAll cfg env b u h l').trace ∧
    (loadAll cfg env b u h l).ok = (loadAll cfg env b u h l').ok ∧
    (loadAll cfg env b u h l).isLoaded = (loadAll cfg env b u h l').isLoaded ∧
    ∀ m, Event.log m ∈ (loadAll cfg env false u h true).trace →
      m = LogMsg.loadingAudsrv ∨ m = LogMsg.audsrvLoaded := by
  have hneutral : ∀ l0 l1 : Bool,
      loadsOf (loadAll cfg env b u h l0).trace =
        loadsOf (loadAll cfg env b u h l1).trace ∧
      (loadAll cfg env b u h l0).ok = (loadAll cfg env b u h l1).ok := by
    intro l0 l1
    cases b
    · have h0 := loadAll_runSeq cfg env u h l0
      have h1 := loadAll_runSeq cfg env u h l1
      rw [← h1, Prod.mk.injEq] at h0
      exact h0
    · exact ⟨rfl, rfl⟩
  refine ⟨(hneutral l l').1, (hneutral l l').2, ?_, ?_⟩
  · cases b
    · rw [loadAll_isLoaded_eq_ok, loadAll_isLoaded_eq_ok]
      exact (hneutral l l').2
    · rfl
  · intro m hm
    have := forall_loadAll (p := fun e => match e with
        | Event.log m2 => decide (m2 = LogMsg.loadingAudsrv ∨
            m2 = LogMsg.audsrvLoaded)
        | _ => true) cfg env false u h true
      (fun _ => rfl) (fun _ hco => absurd hco (by decide)) (by decide)
      (by decide) (fun hco => absurd hco (by decide)) (fun _ => rfl) rfl rfl
      (Event.log m) hm
    exact of_decide_eq_true this

lemma constructor_trace_shape (cfg : BuildConfig) (env : Env) :
    (IrxLoaderConstructor cfg env).1 =
      (if cfg.resetIop then
        [Event.sifInitRpc, Event.sifIopReset, Event.sifIopSync,
          Event.sifInitRpc]
      else []) ++ (applyRpcPatches env).1 := by
  cases hri : cfg.resetIop <;> simp [IrxLoaderConstructor, andThen, hri]

lemma enableLmb_mem_apply (env : Env) :
    Event.patch Patch.enableLmb ∈ (applyRpcPatches env).1 := by
  by_cases h1 : 0 ≤ env.sbvResult .enableLmb <;>
    by_cases h2 : 0 ≤ env.sbvResult .disablePrefixCheck <;>
      simp [applyRpcPatches, sbvPatchCall, andThen, h1, h2]

/-- C10: Patch application is not covered by the idempotency guard: every
bring-up (constructing an IrxLoader and calling loadAll) applies the RPC
patches — its patch events are exactly the patch applier's, with the first
toggle always issued — and, under the RESET_IOP build option, resets and
resynchronizes the IOP, regardless of the value of the process-wide loaded
flag; only the module loads are guarded by the flag: with the flag already
set, the run loads nothing. -/
theorem constructor_unguarded (cfg : BuildConfig) (env : Env) (b u h l : Bool) :
    patchesOf (bringUp cfg env b u h l).trace =
      patchesOf (applyRpcPatches env).1 ∧
    Event.patch .enableLmb ∈ (bringUp cfg env b u h l).trace ∧
    (cfg.resetIop = true →
      Event.sifIopReset ∈ (bringUp cfg env b u h l).trace ∧
      Event.sifIopSync ∈ (bringUp cfg env b u h l).trace) ∧
    (b = true → loadsOf (bringUp cfg env b u h l).trace = []) := by
  have htr : (bringUp cfg env b u h l).trace =
      (IrxLoaderConstructor cfg env).1 ++
        (if (IrxLoaderConstructor cfg env).2 then
          (loadAll cfg env b u h l).trace
        else []) := by
    by_cases hc : (IrxLoaderConstructor cfg env).2 <;> simp [bringUp, hc]
  refine ⟨?_, ?_, ?_, ?_⟩
  · rw [htr, patchesOf_append, constructor_trace_shape, patchesOf_append]
    have hpla : patchesOf (if (IrxLoaderConstructor cfg env).2 then
        (loadAll cfg env b u h l).trace else []) = [] := by
      split
      · exact patchesOf_eq_nil (loadAll_no_patch cfg env b u h l)
      · rfl
    rw [hpla, List.append_nil]
    cases hri : cfg.resetIop <;> simp
  · rw [htr, constructor_trace_shape]
    exact List.mem_append.mpr (Or.inl (List.mem_append.mpr
      (Or.inr (enableLmb_mem_apply env))))
  · intro hri
    rw [htr, constructor_trace_shape, hri]
    constructor
    · exact List.mem_append.mpr (Or.inl (List.mem_append.mpr
        (Or.inl (by simp))))
    · exact List.mem_append.mpr (Or.inl (List.mem_append.mpr
        (Or.inl (by simp))))
  · intro hb
    subst hb
    rw [htr, loadsOf_append, loadsOf_constructor]
    split <;> simp [loadAll, loadsOf]

/-- A build configuration with every option enabled. -/
def cfgFull : BuildConfig :=
  { useUsbdMini := true, atad := true, resetIop := true }

/-- Witness for C10: under the RESET_IOP build option and with the loaded flag
already set, the bring-up still patches and resets the IOP yet loads no
module. -/
theorem constructor_unguarded_witness :
    patchesOf (bringUp cfgFull envOk true true true true).trace =
      patchesOf (applyRpcPatches envOk).1 ∧
    Event.sifIopReset ∈ (bringUp cfgFull envOk true true true true).trace ∧
    loadsOf (bringUp cfgFull envOk true true true true).trace = [] :=
  ⟨(constructor_unguarded cfgFull envOk true true true true).1,
    ((constructor_unguarded cfgFull envOk true true true true).2.2.1 rfl).1,
    (constructor_unguarded cfgFull envOk true true true true).2.2.2 rfl⟩

end Tyra
